import Mathlib

/- Verification of the gloo-file crate (crates/file/src/{blob.rs, file_list.rs,
   file_reader.rs}): the numeric bridge, the blob and named-file model, the
   file-list snapshot view, and the FileReader asynchronous read engine.

   Host doubles are modelled by exact rational values: every finite IEEE-754
   double is a rational number, and every natural number up to 2^53 - 1 is
   exactly representable as a double, so the casts performed by the code are
   exact on the values that actually cross the boundary. -/

namespace GlooFile

/-- Maximum integer exactly representable by an IEEE-754 double, 2^53 - 1.
    Source: blob.rs, constant MAX_F64_INTEGER. -/
def MAX_F64_INTEGER : Nat := 9007199254740991

/-- A finite host double, modelled as an exact rational value. -/
abbrev F64 := ℚ

/-- Rust cast x as u64 applied to a finite double: truncation toward zero
    with saturation (negative values clamp to 0, values above 2^64 - 1 clamp
    to 2^64 - 1). For a nonnegative value truncation toward zero is the floor. -/
def f64_as_u64 (x : F64) : Nat :=
  if x < 0 then 0 else min (Int.floor x).toNat (2 ^ 64 - 1)

/-- blob.rs, from_u64: asserts that the value fits in the safe-double domain
    (at most 2^53 - 1) and then casts to f64. The fatal assertion is modelled
    by none; on success the cast u64 to f64 is exact, so the model returns
    the exact rational value of the input. -/
def from_u64 (number : Nat) : Option F64 :=
  if number ≤ MAX_F64_INTEGER then some (number : ℚ) else none

/-- blob.rs, from_u128: identical contract to from_u64, for u128 inputs
    (millisecond timestamps that may exceed 64 bits). -/
def from_u128 (number : Nat) : Option F64 :=
  if number ≤ MAX_F64_INTEGER then some (number : ℚ) else none

theorem from_u64_of_le {n : Nat} (h : n ≤ MAX_F64_INTEGER) :
    from_u64 n = some (n : ℚ) := by
  simp [from_u64, h]

theorem from_u128_of_le {n : Nat} (h : n ≤ MAX_F64_INTEGER) :
    from_u128 n = some (n : ℚ) := by
  simp [from_u128, h]

theorem f64_as_u64_natCast (n : Nat) :
    f64_as_u64 (n : ℚ) = min n (2 ^ 64 - 1) := by
  unfold f64_as_u64
  rw [if_neg (not_lt.mpr (Nat.cast_nonneg n))]
  rw [Int.floor_natCast, Int.toNat_natCast]

theorem f64_as_u64_natCast_of_lt {n : Nat} (h : n < 2 ^ 64) :
    f64_as_u64 (n : ℚ) = n := by
  rw [f64_as_u64_natCast]
  omega

theorem MAX_F64_INTEGER_lt_two_pow : MAX_F64_INTEGER < 2 ^ 64 := by
  decide

/-- C6: for every unsigned 64-bit or 128-bit input u with u at most 2^53 - 1,
    the numeric bridge conversions from_u64 and from_u128 succeed, and the
    resulting double, converted back to an unsigned integer by the Rust
    as-u64 cast, equals u exactly. -/
theorem claim_C6 (u : Nat) (h : u ≤ MAX_F64_INTEGER) :
    ∃ d : F64, from_u64 u = some d ∧ from_u128 u = some d ∧ f64_as_u64 d = u := by
  refine ⟨(u : ℚ), from_u64_of_le h, from_u128_of_le h, ?_⟩
  exact f64_as_u64_natCast_of_lt (lt_of_le_of_lt h MAX_F64_INTEGER_lt_two_pow)

theorem claim_C6_witness :
    ∃ d : F64, from_u64 42 = some d ∧ from_u128 42 = some d ∧ f64_as_u64 d = 42 :=
  claim_C6 42 (by decide)

/-- C7: for every unsigned input u with u above 2^53 - 1, the numeric bridge
    conversions from_u64 and from_u128 fail fatally (the assertion fires and
    the operation does not return, modelled by none) and no truncated double
    is ever produced or passed onward. -/
theorem claim_C7 (u : Nat) (h : MAX_F64_INTEGER < u) :
    from_u64 u = none ∧ from_u128 u = none := by
  constructor
  · simp [from_u64, Nat.not_le.mpr h]
  · simp [from_u128, Nat.not_le.mpr h]

theorem claim_C7_witness :
    from_u64 9007199254740992 = none ∧ from_u128 9007199254740992 = none :=
  claim_C7 9007199254740992 (by decide)

/-- A host blob handle (web_sys::Blob): an immutable byte sequence together
    with its declared content type string (empty when unset). -/
structure HostBlob where
  data : List Nat
  type_ : String
deriving DecidableEq

/-- Host blob size attribute: the exact byte count, reported as a double. -/
def HostBlob.size (b : HostBlob) : F64 := (b.data.length : ℚ)

/-- Host slice primitive (Blob.prototype.slice with two arguments): keeps the
    bytes in the clamped range from s to e and carries no content type (the
    host defaults the type of the sliced blob to the empty string when no
    contentType argument is passed). -/
def hostBlobSlice (b : HostBlob) (s e : Nat) : HostBlob :=
  ⟨(b.data.take e).drop s, ""⟩

/-- blob.rs, blob_slice: bridges start and end through from_u64 (fatal when a
    bound exceeds 2^53 - 1, modelled by none) and calls the host slice
    primitive, which turns the doubles back into integer indices. -/
def blob_slice (blob : HostBlob) (start fin : Nat) : Option HostBlob := do
  let s ← from_u64 start
  let e ← from_u64 fin
  some (hostBlobSlice blob (f64_as_u64 s) (f64_as_u64 e))

theorem blob_slice_of_le {b : HostBlob} {s e : Nat}
    (hs : s ≤ MAX_F64_INTEGER) (he : e ≤ MAX_F64_INTEGER) :
    blob_slice b s e = some (hostBlobSlice b s e) := by
  rw [blob_slice, from_u64_of_le hs, from_u64_of_le he]
  simp [f64_as_u64_natCast_of_lt (lt_of_le_of_lt hs MAX_F64_INTEGER_lt_two_pow),
    f64_as_u64_natCast_of_lt (lt_of_le_of_lt he MAX_F64_INTEGER_lt_two_pow)]

/-- Normalized blob contents (blob.rs, BlobContents): every supported input
    shape is reduced to the byte sequence it contributes to the new object. -/
structure BlobContents where
  inner : List Nat
deriving DecidableEq

def BlobContents.from_raw (l : List Nat) : BlobContents := ⟨l⟩

/-- Content Builder input: a text string contributes its UTF-8 bytes. -/
def BlobContents.of_str (s : String) : BlobContents :=
  ⟨s.toUTF8.toList.map (fun b => b.toNat)⟩

/-- Content Builder input: a raw byte slice contributes its bytes verbatim. -/
def BlobContents.of_bytes (l : List Nat) : BlobContents := ⟨l⟩

/-- Options bag for the host Blob constructor (web_sys::BlobPropertyBag):
    the declared type is unset until explicitly applied. -/
structure BlobPropertyBag where
  type_ : Option String
deriving DecidableEq

def BlobPropertyBag.new : BlobPropertyBag := ⟨none⟩

def BlobPropertyBag.set_type (_ : BlobPropertyBag) (t : String) : BlobPropertyBag :=
  ⟨some t⟩

/-- Host Blob constructor without options: declared type defaults to empty. -/
def hostBlobNew (parts : List Nat) : HostBlob := ⟨parts, ""⟩

/-- Host Blob constructor with an options bag: an applied type is used,
    an unset type defaults to the empty string. -/
def hostBlobNewWithOptions (parts : List Nat) (props : BlobPropertyBag) : HostBlob :=
  ⟨parts, props.type_.getD ""⟩

/-- blob.rs, struct Blob: a wrapper around a host blob handle. -/
structure Blob where
  inner : HostBlob
deriving DecidableEq

def Blob.from_raw (inner : HostBlob) : Blob := ⟨inner⟩

/-- blob.rs, Blob::new: builds a single-part blob with no options. -/
def Blob.new (content : BlobContents) : Blob := ⟨hostBlobNew content.inner⟩

/-- blob.rs, Blob::new_with_options, options construction (lines 136-137):
    a fresh bag on which the given type string is unconditionally applied.
    The mime_type parameter of Blob::new_with_options is a mandatory String. -/
def Blob.new_with_options_bag (mime_type : String) : BlobPropertyBag :=
  BlobPropertyBag.set_type BlobPropertyBag.new mime_type

/-- blob.rs, Blob::new_with_options: builds a single-part blob with the
    (mandatory) declared content type applied through the options bag. -/
def Blob.new_with_options (content : BlobContents) (mime_type : String) : Blob :=
  ⟨hostBlobNewWithOptions content.inner (Blob.new_with_options_bag mime_type)⟩

/-- BlobLike::size default method: the host-reported double cast as u64. -/
def Blob.size (b : Blob) : Nat := f64_as_u64 b.inner.size

/-- BlobLike::raw_mime_type default method: the host type string verbatim. -/
def Blob.raw_mime_type (b : Blob) : String := b.inner.type_

/-- BlobLike::slice for Blob: wraps blob_slice on the raw handle and returns
    the same concrete variant (a Blob). -/
def Blob.slice (b : Blob) (start fin : Nat) : Option Blob :=
  (blob_slice b.inner start fin).map Blob.from_raw

/-- C5: for every Binary Object b and every range with s ≤ e ≤ b.size(),
    b.slice(s, e) succeeds, is again a Blob (the same concrete variant, by
    the result type of Blob.slice), and its size() equals e - s. The bound
    e ≤ 2^53 - 1 is the data-model invariant of Binary Objects (spec section
    3: size is at most the host's representable magnitude), under which both
    bridge crossings performed by blob_slice succeed. -/
theorem claim_C5 (b : Blob) (s e : Nat) (hse : s ≤ e) (hes : e ≤ b.size)
    (hmax : e ≤ MAX_F64_INTEGER) :
    ∃ c : Blob, b.slice s e = some c ∧ c.size = e - s := by
  have hb : b.slice s e = some (Blob.from_raw (hostBlobSlice b.inner s e)) := by
    rw [Blob.slice, blob_slice_of_le (le_trans hse hmax) hmax]
    rfl
  refine ⟨Blob.from_raw (hostBlobSlice b.inner s e), hb, ?_⟩
  have hlen : e ≤ b.inner.data.length := by
    have := hes
    rw [Blob.size, HostBlob.size, f64_as_u64_natCast] at this
    omega
  have hslen : (hostBlobSlice b.inner s e).data.length = e - s := by
    simp [hostBlobSlice]
    omega
  rw [Blob.size, HostBlob.size, Blob.from_raw, hslen, f64_as_u64_natCast]
  have : e - s < 2 ^ 64 := lt_of_le_of_lt (by omega) MAX_F64_INTEGER_lt_two_pow
  omega

theorem claim_C5_witness :
    ∃ c : Blob, Blob.slice ⟨⟨[10, 20, 30, 40], "text/plain"⟩⟩ 1 3 = some c ∧
      c.size = 3 - 1 :=
  claim_C5 ⟨⟨[10, 20, 30, 40], "text/plain"⟩⟩ 1 3 (by decide)
    (by rw [Blob.size, HostBlob.size, f64_as_u64_natCast]; decide) (by decide)

/-- A host file handle (web_sys::File): a blob plus a name and a
    last-modified timestamp in milliseconds since the epoch, reported as a
    double (so possibly fractional or negative). -/
structure HostFile where
  data : List Nat
  type_ : String
  name : String
  lastModified : F64
deriving DecidableEq

/-- Upcast of a host file to its underlying host blob (web_sys::File derefs
    to web_sys::Blob). -/
def HostFile.asBlob (f : HostFile) : HostBlob := ⟨f.data, f.type_⟩

/-- blob.rs, struct File: a wrapper around a host file handle. -/
structure File where
  inner : HostFile
deriving DecidableEq

def File.from_raw (inner : HostFile) : File := ⟨inner⟩

/-- BlobLike::as_raw for File: the underlying host blob. -/
def File.as_raw (f : File) : HostBlob := f.inner.asBlob

/-- blob.rs, File::name: the host-reported file name. -/
def File.name (f : File) : String := f.inner.name

/-- BlobLike::raw_mime_type for File: the host type string verbatim. -/
def File.raw_mime_type (f : File) : String := f.as_raw.type_

/-- BlobLike::size for File: the host-reported double cast as u64. -/
def File.size (f : File) : Nat := f64_as_u64 f.as_raw.size

/-- std::time::Duration, restricted to what the code uses: the value of
    as_millis for a duration built by Duration::from_millis. -/
structure Duration where
  millis : Nat
deriving DecidableEq

def Duration.from_millis (n : Nat) : Duration := ⟨n⟩

def Duration.as_millis (d : Duration) : Nat := d.millis

/-- blob.rs, File::last_modified_since_epoch:
    Duration::from_millis(self.inner.last_modified() as u64). The host double
    is cast to u64 (truncation toward zero with clamping) and wrapped. -/
def File.last_modified_since_epoch (f : File) : Duration :=
  Duration.from_millis (f64_as_u64 f.inner.lastModified)

/-- Options bag for the host File constructor (web_sys::FilePropertyBag):
    both options are unset until explicitly applied. -/
structure FilePropertyBag where
  type_ : Option String
  last_modified : Option F64
deriving DecidableEq

def FilePropertyBag.new : FilePropertyBag := ⟨none, none⟩

/-- Host File constructor with an options bag: an applied type is used (else
    the empty string); an applied last-modified double is used (else the host
    clock now, the creation time per host convention). -/
def hostFileNew (now : F64) (parts : List Nat) (name : String)
    (props : FilePropertyBag) : HostFile :=
  ⟨parts, props.type_.getD "", name, props.last_modified.getD now⟩

/-- blob.rs, File::new_with_options: builds the options bag, applying the
    declared type when present and the last-modified timestamp (bridged
    through from_u128 on its whole-millisecond value, fatal when it exceeds
    2^53 - 1, modelled by none) when present, then calls the host
    constructor. The host clock now stands for the out-of-scope host default
    used when last-modified is absent. -/
def File.new_with_options (now : F64) (name : String) (contents : BlobContents)
    (mime_type : Option String)
    (last_modified_since_epoch : Option Duration) : Option File := do
  let lm ← match last_modified_since_epoch with
    | none => some none
    | some d => (from_u128 d.as_millis).map some
  some ⟨hostFileNew now contents.inner name ⟨mime_type, lm⟩⟩

/-- blob.rs, File::slice, lines 239-243: the sliced file's declared type
    option is none exactly when the original declared type is empty. -/
def sliceMimeOption (raw_mime_type : String) : Option String :=
  if raw_mime_type = "" then none else some raw_mime_type

/-- BlobLike::slice for File: slices the raw bytes through blob_slice, then
    reconstructs a named file around them, copying across the name, the
    declared type (or none when empty) and the last-modified timestamp. -/
def File.slice (now : F64) (f : File) (start fin : Nat) : Option File := do
  let blob ← blob_slice f.as_raw start fin
  File.new_with_options now f.name (BlobContents.from_raw blob.data)
    (sliceMimeOption f.raw_mime_type) (some f.last_modified_since_epoch)

/-- C4: for every Named File f and every slice range accepted by the bridge
    (both bounds, and the file's cast last-modified millisecond value, in the
    safe-double domain), f.slice(s, e) is again a Named File whose name
    equals f.name(), whose last-modified timestamp equals
    f.last_modified_since_epoch(), and whose declared content type is carried
    over from f, the type option passed to the reconstruction being none when
    the declared content type is the empty string. -/
theorem claim_C4 (now : F64) (f : File) (s e : Nat)
    (hs : s ≤ MAX_F64_INTEGER) (he : e ≤ MAX_F64_INTEGER)
    (hl : f64_as_u64 f.inner.lastModified ≤ MAX_F64_INTEGER) :
    ∃ g : File, File.slice now f s e = some g ∧
      g.name = f.name ∧
      g.last_modified_since_epoch = f.last_modified_since_epoch ∧
      g.raw_mime_type = f.raw_mime_type ∧
      sliceMimeOption "" = none := by
  have hf : File.slice now f s e =
      some ⟨hostFileNew now (hostBlobSlice f.as_raw s e).data f.name
        ⟨sliceMimeOption f.raw_mime_type,
         some ((f64_as_u64 f.inner.lastModified : ℕ) : ℚ)⟩⟩ := by
    simp [File.slice, blob_slice_of_le hs he, File.new_with_options,
      File.last_modified_since_epoch, Duration.from_millis, Duration.as_millis,
      from_u128_of_le hl, BlobContents.from_raw]
  refine ⟨_, hf, rfl, ?_, ?_, rfl⟩
  · show Duration.from_millis
        (f64_as_u64 ((f64_as_u64 f.inner.lastModified : ℕ) : ℚ)) = _
    rw [f64_as_u64_natCast_of_lt (lt_of_le_of_lt hl MAX_F64_INTEGER_lt_two_pow)]
    rfl
  · show (sliceMimeOption f.raw_mime_type).getD "" = f.raw_mime_type
    rw [sliceMimeOption]
    by_cases hmt : f.raw_mime_type = ""
    · simp [hmt]
    · simp [hmt]

theorem claim_C4_witness :
    ∃ g : File,
      File.slice 0 ⟨⟨[1, 2, 3], "text/plain", "a.txt", ((5 : ℕ) : ℚ)⟩⟩ 1 2 = some g ∧
      g.name = File.name ⟨⟨[1, 2, 3], "text/plain", "a.txt", ((5 : ℕ) : ℚ)⟩⟩ ∧
      g.last_modified_since_epoch =
        File.last_modified_since_epoch ⟨⟨[1, 2, 3], "text/plain", "a.txt", ((5 : ℕ) : ℚ)⟩⟩ ∧
      g.raw_mime_type = File.raw_mime_type ⟨⟨[1, 2, 3], "text/plain", "a.txt", ((5 : ℕ) : ℚ)⟩⟩ ∧
      sliceMimeOption "" = none :=
  claim_C4 0 ⟨⟨[1, 2, 3], "text/plain", "a.txt", ((5 : ℕ) : ℚ)⟩⟩ 1 2 (by decide) (by decide)
    (by show f64_as_u64 ((5 : ℕ) : ℚ) ≤ MAX_F64_INTEGER
        rw [f64_as_u64_natCast_of_lt (by decide)]
        decide)

/-- C8, counterexample: the claim asserts that the plain Blob variant's
    new_with_options accepts an absent declared content type, deferring to
    the host default. In the code the mime_type parameter of
    Blob::new_with_options is a mandatory String and the options bag it
    passes to the host always carries an explicitly applied type: even for
    the empty string input the bag differs from the fresh (unset) bag, so no
    call can leave the declared type absent. -/
theorem claim_C8_counterexample :
    (Blob.new_with_options_bag "").type_ ≠ none ∧
    (Blob.new_with_options ⟨[]⟩ "").inner =
      hostBlobNewWithOptions [] ⟨some ""⟩ := by
  constructor
  · decide
  · rfl

/-- C8, amended: File::new_with_options treats the declared content type and
    the last-modified timestamp as optional, applying each option to the new
    object when present and omitting it (deferring to the host default: empty
    type, host clock now) when absent; the plain Blob variant's
    new_with_options instead takes a mandatory declared content type and
    always applies it through the options bag. -/
theorem claim_C8 (now : F64) (name : String) (c : BlobContents) (t : String)
    (d : Duration) (hd : d.millis ≤ MAX_F64_INTEGER) :
    ((Blob.new_with_options c t).raw_mime_type = t ∧
      Blob.new_with_options_bag t = ⟨some t⟩) ∧
    (∃ g : File, File.new_with_options now name c (some t) (some d) = some g ∧
      g.raw_mime_type = t ∧ (g.last_modified_since_epoch).millis = d.millis) ∧
    (∃ g : File, File.new_with_options now name c (some t) none = some g ∧
      g.raw_mime_type = t ∧ g.inner.lastModified = now) ∧
    (∃ g : File, File.new_with_options now name c none (some d) = some g ∧
      g.raw_mime_type = "" ∧ (g.last_modified_since_epoch).millis = d.millis) ∧
    (∃ g : File, File.new_with_options now name c none none = some g ∧
      g.raw_mime_type = "" ∧ g.inner.lastModified = now) := by
  have hdmil : f64_as_u64 ((d.millis : ℕ) : ℚ) = d.millis :=
    f64_as_u64_natCast_of_lt (lt_of_le_of_lt hd MAX_F64_INTEGER_lt_two_pow)
  refine ⟨⟨rfl, rfl⟩, ?_, ?_, ?_, ?_⟩
  · refine ⟨⟨hostFileNew now c.inner name ⟨some t, some ((d.millis : ℕ) : ℚ)⟩⟩, ?_, rfl, ?_⟩
    · simp [File.new_with_options, Duration.as_millis, from_u128_of_le hd]
    · show f64_as_u64 ((d.millis : ℕ) : ℚ) = d.millis
      exact hdmil
  · exact ⟨⟨hostFileNew now c.inner name ⟨some t, none⟩⟩, rfl, rfl, rfl⟩
  · refine ⟨⟨hostFileNew now c.inner name ⟨none, some ((d.millis : ℕ) : ℚ)⟩⟩, ?_, rfl, ?_⟩
    · simp [File.new_with_options, Duration.as_millis, from_u128_of_le hd]
    · show f64_as_u64 ((d.millis : ℕ) : ℚ) = d.millis
      exact hdmil
  · exact ⟨⟨hostFileNew now c.inner name ⟨none, none⟩⟩, rfl, rfl, rfl⟩

theorem claim_C8_witness :
    ((Blob.new_with_options ⟨[7]⟩ "text/plain").raw_mime_type = "text/plain" ∧
      Blob.new_with_options_bag "text/plain" = ⟨some "text/plain"⟩) ∧
    (∃ g : File, File.new_with_options 3 "n.txt" ⟨[7]⟩ (some "text/plain")
        (some ⟨1000⟩) = some g ∧
      g.raw_mime_type = "text/plain" ∧ (g.last_modified_since_epoch).millis = 1000) ∧
    (∃ g : File, File.new_with_options 3 "n.txt" ⟨[7]⟩ (some "text/plain") none = some g ∧
      g.raw_mime_type = "text/plain" ∧ g.inner.lastModified = 3) ∧
    (∃ g : File, File.new_with_options 3 "n.txt" ⟨[7]⟩ none (some ⟨1000⟩) = some g ∧
      g.raw_mime_type = "" ∧ (g.last_modified_since_epoch).millis = 1000) ∧
    (∃ g : File, File.new_with_options 3 "n.txt" ⟨[7]⟩ none none = some g ∧
      g.raw_mime_type = "" ∧ g.inner.lastModified = 3) :=
  claim_C8 3 "n.txt" ⟨[7]⟩ "text/plain" ⟨1000⟩ (by decide)

/-- C10: File::last_modified_since_epoch converts the host's double
    millisecond timestamp by the Rust as-u64 cast before building the
    Duration: a timestamp n + q with fractional part 0 ≤ q < 1 yields exactly
    n milliseconds (fractional milliseconds discarded), and a negative host
    timestamp yields 0 milliseconds (clamped, neither reported nor
    rejected). -/
theorem claim_C10 (f : File) (n : Nat) (q : ℚ) :
    (f.inner.lastModified < 0 →
      f.last_modified_since_epoch = Duration.from_millis 0) ∧
    (f.inner.lastModified = (n : ℚ) + q → 0 ≤ q → q < 1 → n < 2 ^ 64 →
      f.last_modified_since_epoch = Duration.from_millis n) := by
  constructor
  · intro hneg
    rw [File.last_modified_since_epoch, f64_as_u64, if_pos hneg]
  · intro heq hq0 hq1 hn
    rw [File.last_modified_since_epoch, f64_as_u64, heq]
    rw [if_neg (not_lt.mpr (by positivity))]
    have hfl : Int.floor ((n : ℚ) + q) = (n : ℤ) := by
      rw [add_comm, Int.floor_add_nat]
      rw [Int.floor_eq_zero_iff.mpr ⟨hq0, hq1⟩]
      omega
    rw [hfl]
    simp [Duration.from_millis]
    omega

theorem claim_C10_witness :
    (File.last_modified_since_epoch ⟨⟨[], "", "neg.txt", -3⟩⟩ = Duration.from_millis 0) ∧
    (File.last_modified_since_epoch ⟨⟨[], "", "frac.txt", (7 : ℚ) + 1 / 2⟩⟩ =
      Duration.from_millis 7) := by
  constructor
  · exact (claim_C10 ⟨⟨[], "", "neg.txt", -3⟩⟩ 0 0).1 (by norm_num)
  · exact (claim_C10 ⟨⟨[], "", "frac.txt", (7 : ℚ) + 1 / 2⟩⟩ 7 (1 / 2)).2
      (by norm_num) (by norm_num) (by norm_num) (by norm_num)

/-- file_list.rs, struct FileList: an owned vector of named files,
    materialized once at construction. -/
structure FileList where
  inner : List File
deriving DecidableEq

/-- Order-preserving collection of a fallible map over a list of indices
    (the Option-monad traversal performed by the iterator collect). -/
def collectFiles (f : Nat → Option File) : List Nat → Option (List File)
  | [] => some []
  | i :: is => do
      let x ← f i
      let xs ← collectFiles f is
      some (x :: xs)

/-- file_list.rs, FileList::from_raw: reads the host collection's length,
    then indexes 0..length, wrapping each entry via File::from_raw. The host
    get(i) returns an optional handle; unwrap_throw on a missing entry is
    modelled by none (it cannot occur for indices below the length). -/
def FileList.from_raw (js : List HostFile) : Option FileList :=
  (collectFiles (fun i => (js[i]?).map File.from_raw) (List.range js.length)).map
    (fun inner => ⟨inner⟩)

/-- impl Deref for FileList: read-only access to the snapshot as a slice;
    no mutation operation exists on FileList. -/
def FileList.deref (fl : FileList) : List File := fl.inner

theorem collectFiles_range_get (g : HostFile → File) :
    ∀ (t : List HostFile) (js : List HostFile) (k : Nat), js.drop k = t →
      collectFiles (fun i => (js[i]?).map g) (List.range' k t.length) =
        some (t.map g) := by
  intro t
  induction t with
  | nil =>
      intro js k _
      rfl
  | cons a t ih =>
      intro js k h
      have h1 : js[k]? = some a := by
        rw [← List.head?_drop, h]
        rfl
      have h2 : js.drop (k + 1) = t := by
        have hc := congrArg (List.drop 1) h
        rw [List.drop_drop] at hc
        simpa using hc
      rw [List.length_cons, List.range'_succ]
      simp [collectFiles, h1, ih js (k + 1) h2]

theorem from_raw_eq (js : List HostFile) :
    FileList.from_raw js = some ⟨js.map File.from_raw⟩ := by
  rw [FileList.from_raw, List.range_eq_range',
    collectFiles_range_get File.from_raw js js 0 rfl]
  rfl

/-- C9: FileList::from_raw applied to a host collection of length n produces
    a view with exactly n entries, the entry at each index i wrapping the
    host collection's element at index i (original order preserved); the view
    is fully determined by the snapshot taken at construction (its entries
    are a pure function of the handles read then, so later host mutation
    cannot change them) and offers only read access through deref. -/
theorem claim_C9 (js : List HostFile) :
    ∃ fl : FileList, FileList.from_raw js = some fl ∧
      fl.deref = js.map File.from_raw ∧
      fl.deref.length = js.length ∧
      (∀ i : Nat, fl.deref[i]? = (js[i]?).map File.from_raw) := by
  refine ⟨⟨js.map File.from_raw⟩, from_raw_eq js, rfl, by simp [FileList.deref], ?_⟩
  intro i
  simp [FileList.deref]

/-- A host JavaScript value as it appears in a reader's result slot: a
    decoded string, a decoded byte buffer, or null. -/
inductive JsValue where
  | str (s : String)
  | buf (b : List Nat)
  | null
deriving DecidableEq

/-- file_reader.rs, FileReadError: wraps the host exception; only its
    message is observable through Display. -/
structure FileReadError where
  error : String
deriving DecidableEq

/-- Host reader ready states (web_sys::FileReader): EMPTY, LOADING, DONE. -/
inductive ReadyState where
  | empty
  | loading
  | done
deriving DecidableEq

/-- Host FileReader state: ready state plus the error and result slots. -/
structure HostReader where
  state : ReadyState
  error : Option String
  result : Option JsValue
deriving DecidableEq

/-- file_reader.rs, get_result: inspect the error slot first; when set,
    build a read error (returned, never thrown); otherwise read the result
    slot (unwrap_throw on a failed result access is modelled by none). -/
def get_result (reader : HostReader) : Option (Except FileReadError JsValue) :=
  match reader.error with
  | some error => some (Except.error ⟨error⟩)
  | none => reader.result.map Except.ok

/-- file_reader.rs, as_string: the callback of read_to_string and
    read_to_data_url coerces the decoded value to a string; unwrap_throw on a
    non-string value is modelled by none. -/
def as_string (js : JsValue) : Option String :=
  match js with
  | JsValue.str s => some s
  | _ => none

/-- file_reader.rs, read_to_string wrapper: callback(x.map(as_string)). -/
def read_to_string_coerce (x : Except FileReadError JsValue) :
    Option (Except FileReadError String) :=
  match x with
  | Except.error e => some (Except.error e)
  | Except.ok v => (as_string v).map Except.ok

/-- file_reader.rs, read_to_data_url wrapper: callback(x.map(as_string)). -/
def read_to_data_url_coerce (x : Except FileReadError JsValue) :
    Option (Except FileReadError String) :=
  match x with
  | Except.error e => some (Except.error e)
  | Except.ok v => (as_string v).map Except.ok

/-- The unchecked host cast JsValue into ArrayBuffer used by the
    read_to_array_buffer wrapper; it never fails (a non-buffer value would
    just be reinterpreted, modelled by the empty buffer). -/
def as_array_buffer (js : JsValue) : List Nat :=
  match js with
  | JsValue.buf b => b
  | _ => []

/-- file_reader.rs, read_to_array_buffer wrapper:
    callback(x.map(Into::into)). -/
def read_to_array_buffer_coerce (x : Except FileReadError JsValue) :
    Except FileReadError (List Nat) :=
  x.map as_array_buffer

/-- The state of one read operation: the host reader, whether the one-shot
    loadend listener is currently registered, and the observable callback
    history (calls counts invocations; outcomes logs the argument of each
    invocation, with none standing for a panic inside get_result). -/
structure Engine where
  reader : HostReader
  listener_active : Bool
  calls : Nat
  outcomes : List (Option (Except FileReadError JsValue))

/-- Host dispatch of the loadend notification: when the one-shot listener is
    registered it self-removes and its handler invokes the caller callback
    with get_result of the reader; otherwise nothing happens. -/
def dispatchLoadend (e : Engine) : Engine :=
  if e.listener_active then
    { e with
        listener_active := false,
        calls := e.calls + 1,
        outcomes := e.outcomes ++ [get_result e.reader] }
  else
    e

/-- Host FileReader.abort(): while loading, it moves the reader to DONE,
    clears the result and fires the loadend notification; in EMPTY or DONE
    it only clears the result and fires nothing. -/
def engineAbort (e : Engine) : Engine :=
  if e.reader.state = ReadyState.loading then
    dispatchLoadend { e with reader :=
      { e.reader with state := ReadyState.done, result := none } }
  else
    { e with reader := { e.reader with result := none } }

/-- Whether an explicit teardown action runs during Drop::drop. -/
inductive TeardownStep where
  | deregister
  | abortReader
deriving DecidableEq

/-- file_reader.rs, impl Drop for FileReader: when the reader is not DONE,
    first take (and thereby deregister) the one-shot loadend listener, then
    issue abort to the host reader; when DONE the body does nothing. In both
    cases the struct fields are dropped afterwards, which releases the
    listener registration (a no-op when the one-shot listener already
    self-removed). The returned list records the explicit teardown steps of
    the Drop body, in order. -/
def dropHandle (e : Engine) : Engine × List TeardownStep :=
  if e.reader.state ≠ ReadyState.done then
    (engineAbort { e with listener_active := false },
     [TeardownStep.deregister, TeardownStep.abortReader])
  else
    ({ e with listener_active := false }, [])

/-- External events that can reach one read operation: the host completing
    the read (delivering a result or an error and firing loadend), and the
    caller dropping the FileReader handle. -/
inductive HostRes where
  | ok (v : JsValue)
  | err (msg : String)
deriving DecidableEq

inductive Event where
  | load (res : HostRes)
  | drop
deriving DecidableEq

/-- Host completion: fill the result or error slot, move to DONE, then fire
    the loadend notification. -/
def applyLoad (_ : HostReader) (res : HostRes) : HostReader :=
  match res with
  | HostRes.ok v => ⟨ReadyState.done, none, some v⟩
  | HostRes.err m => ⟨ReadyState.done, some m, none⟩

def step (e : Engine) : Event → Engine
  | Event.load res => dispatchLoadend { e with reader := applyLoad e.reader res }
  | Event.drop => (dropHandle e).1

def run (e : Engine) (evs : List Event) : Engine :=
  evs.foldl step e

/-- file_reader.rs, read_as: allocate a fresh host reader, register the
    one-shot loadend listener, then issue the read request (moving the host
    reader to LOADING). This is the engine state at the moment read_as
    returns, for every decode mode. -/
def read_as_engine : Engine :=
  ⟨⟨ReadyState.loading, none, none⟩, true, 0, []⟩

/-- Invariant of every reachable engine state: the callback ran at most
    once, never while the listener is still registered, never before the
    reader reached DONE, and the outcome log matches the call count. -/
def EngineInv (e : Engine) : Prop :=
  e.calls ≤ 1 ∧
  (e.listener_active = true → e.calls = 0) ∧
  (e.reader.state ≠ ReadyState.done → e.calls = 0) ∧
  e.outcomes.length = e.calls

theorem step_inv {e : Engine} (h : EngineInv e) (ev : Event) :
    EngineInv (step e ev) := by
  obtain ⟨h1, h2, h3, h4⟩ := h
  cases ev with
  | load res =>
      by_cases ha : e.listener_active = true
      · have hc0 : e.calls = 0 := h2 ha
        cases res <;>
          simp [step, dispatchLoadend, applyLoad, EngineInv, ha, hc0, h4]
      · cases res <;>
          simp [step, dispatchLoadend, applyLoad, EngineInv, ha, h1, h2, h4]
  | drop =>
      by_cases hs : e.reader.state = ReadyState.done
      · simp [step, dropHandle, EngineInv, hs, h1, h4]
      · have hc0 : e.calls = 0 := h3 hs
        by_cases hl : e.reader.state = ReadyState.loading
        · simp [step, dropHandle, engineAbort, dispatchLoadend, EngineInv,
            hs, hl, hc0, h4]
        · simp [step, dropHandle, engineAbort, EngineInv, hs, hl, hc0, h4]

theorem run_inv {e : Engine} (h : EngineInv e) (evs : List Event) :
    EngineInv (run e evs) := by
  induction evs generalizing e with
  | nil => exact h
  | cons ev evs ih => exact ih (step_inv h ev)

/-- A single event on an engine whose listener is gone preserves the call
    count, the outcome log and the absence of the listener. -/
theorem step_frozen {e : Engine} (h : e.listener_active = false) (ev : Event) :
    (step e ev).listener_active = false ∧ (step e ev).calls = e.calls ∧
      (step e ev).outcomes = e.outcomes := by
  cases ev with
  | load res =>
      simp [step, dispatchLoadend, h]
  | drop =>
      by_cases hs : e.reader.state = ReadyState.done
      · simp [step, dropHandle, hs]
      · by_cases hl : e.reader.state = ReadyState.loading
        · simp [step, dropHandle, engineAbort, dispatchLoadend, hs, hl]
        · simp [step, dropHandle, engineAbort, hs, hl]

theorem run_cons (e : Engine) (ev : Event) (evs : List Event) :
    run e (ev :: evs) = run (step e ev) evs := rfl

/-- Once the one-shot listener is gone, no later sequence of events can
    invoke the callback. -/
theorem run_frozen {e : Engine} (h : e.listener_active = false) (evs : List Event) :
    (run e evs).listener_active = false ∧ (run e evs).calls = e.calls ∧
      (run e evs).outcomes = e.outcomes := by
  induction evs generalizing e with
  | nil => exact ⟨h, rfl, rfl⟩
  | cons ev evs ih =>
      obtain ⟨ha, hb, hc⟩ := step_frozen h ev
      obtain ⟨ra, rb, rc⟩ := ih ha
      rw [run_cons]
      exact ⟨ra, by rw [rb, hb], by rw [rc, hc]⟩

/-- Dropping the handle never invokes the callback and always leaves the
    listener deregistered, whatever the current state. -/
theorem drop_step (e : Engine) :
    (step e Event.drop).calls = e.calls ∧
      (step e Event.drop).outcomes = e.outcomes ∧
      (step e Event.drop).listener_active = false := by
  by_cases hs : e.reader.state = ReadyState.done
  · simp [step, dropHandle, hs]
  · by_cases hl : e.reader.state = ReadyState.loading
    · simp [step, dropHandle, engineAbort, dispatchLoadend, hs, hl]
    · simp [step, dropHandle, engineAbort, hs, hl]

theorem read_as_engine_inv : EngineInv read_as_engine := by
  refine ⟨by decide, by decide, fun _ => rfl, rfl⟩

/-- C1: for every read operation started by read_as, the callback runs at
    most once over any sequence of host events; and if the handle is dropped
    while the read is still in flight (the reader not yet DONE, the loadend
    notification not yet fired), the callback is never invoked: not during
    the drop itself (whose abort fires loadend only after the listener was
    deregistered) and not by any host notification delivered after the
    drop. -/
theorem claim_C1 :
    (∀ evs : List Event, (run read_as_engine evs).calls ≤ 1) ∧
    (∀ evs1 evs2 : List Event,
      (run read_as_engine evs1).reader.state ≠ ReadyState.done →
        (run (step (run read_as_engine evs1) Event.drop) evs2).calls = 0 ∧
        (run (step (run read_as_engine evs1) Event.drop) evs2).outcomes = []) := by
  constructor
  · intro evs
    exact (run_inv read_as_engine_inv evs).1
  · intro evs1 evs2 hflight
    obtain ⟨i1, i2, i3, i4⟩ := run_inv read_as_engine_inv evs1
    have hc0 : (run read_as_engine evs1).calls = 0 := i3 hflight
    have hout : (run read_as_engine evs1).outcomes = [] := by
      have := i4
      rw [hc0] at this
      exact List.length_eq_zero.mp this
    obtain ⟨d1, d2, d3⟩ := drop_step (run read_as_engine evs1)
    obtain ⟨f1, f2, f3⟩ := run_frozen d3 evs2
    refine ⟨?_, ?_⟩
    · rw [f2, d1, hc0]
    · rw [f3, d2, hout]

theorem claim_C1_witness :
    (run (step (run read_as_engine []) Event.drop)
        [Event.load (HostRes.ok (JsValue.str "Hello world!"))]).calls = 0 ∧
    (run (step (run read_as_engine []) Event.drop)
        [Event.load (HostRes.ok (JsValue.str "Hello world!"))]).outcomes = [] :=
  claim_C1.2 [] [Event.load (HostRes.ok (JsValue.str "Hello world!"))] (by decide)

/-- C2: when the handle is discarded while the host reader is not yet DONE,
    the Drop body performs exactly two steps in this order: deregister the
    one-shot loadend listener, then issue abort to the host reader; when the
    reader is already DONE at discard time, the Drop body performs neither
    step. -/
theorem claim_C2 (e : Engine) :
    (e.reader.state ≠ ReadyState.done →
      (dropHandle e).2 = [TeardownStep.deregister, TeardownStep.abortReader]) ∧
    (e.reader.state = ReadyState.done → (dropHandle e).2 = []) := by
  constructor
  · intro hs
    rw [dropHandle, if_pos hs]
  · intro hs
    rw [dropHandle, if_neg (by simp [hs])]

theorem claim_C2_witness :
    (dropHandle read_as_engine).2 =
      [TeardownStep.deregister, TeardownStep.abortReader] ∧
    (dropHandle ⟨⟨ReadyState.done, none, some JsValue.null⟩, false, 1,
        [some (Except.ok JsValue.null)]⟩).2 = [] :=
  ⟨(claim_C2 read_as_engine).1 (by decide),
   (claim_C2 ⟨⟨ReadyState.done, none, some JsValue.null⟩, false, 1,
      [some (Except.ok JsValue.null)]⟩).2 rfl⟩

/-- C3: on delivery of the completion notification the engine first inspects
    the host reader's error slot: when an error is present the callback
    receives an error outcome wrapping the host exception, returned inside
    the result value and independent of whatever the result slot holds;
    otherwise the callback receives the decoded result coerced to the mode's
    expected shape: a string for read_to_string and read_to_data_url, a byte
    buffer for read_to_array_buffer. -/
theorem claim_C3 (st : ReadyState) (m : String) (r : Option JsValue)
    (v : JsValue) (s : String) (b : List Nat) :
    (get_result ⟨st, some m, r⟩ = some (Except.error ⟨m⟩)) ∧
    (get_result ⟨st, none, some v⟩ = some (Except.ok v)) ∧
    (read_to_string_coerce (Except.error ⟨m⟩) = some (Except.error ⟨m⟩)) ∧
    (read_to_data_url_coerce (Except.error ⟨m⟩) = some (Except.error ⟨m⟩)) ∧
    (read_to_array_buffer_coerce (Except.error ⟨m⟩) = Except.error ⟨m⟩) ∧
    (read_to_string_coerce (Except.ok (JsValue.str s)) = some (Except.ok s)) ∧
    (read_to_data_url_coerce (Except.ok (JsValue.str s)) = some (Except.ok s)) ∧
    (read_to_array_buffer_coerce (Except.ok (JsValue.buf b)) = Except.ok b) ∧
    ((run read_as_engine [Event.load (HostRes.err m)]).outcomes =
      [some (Except.error ⟨m⟩)]) ∧
    ((run read_as_engine [Event.load (HostRes.ok v)]).outcomes =
      [some (Except.ok v)]) := by
  refine ⟨rfl, rfl, rfl, rfl, rfl, rfl, rfl, rfl, ?_, ?_⟩
  · rfl
  · rfl

end GlooFile
